import Mathlib

/-!
Verification development for the ImageFlow image utility (src/app.js).

The JavaScript source is shallowly embedded: pure computations become Lean
functions over `Rat`/`Int`, the stateful parts (image list, storage counters,
peer connection set, crop selection) become explicit state records with step
functions, and the DOM/canvas layer is abstracted away (a data URL is kept as
its mime type, quality argument and an opaque payload).  JavaScript
`Math.round` is `jsRound`, `Math.max`/`Math.min` are `max`/`min` on `Rat`.
-/

namespace ImageFlow

/-- JavaScript `Math.round`: round half toward positive infinity. -/
def jsRound (x : ℚ) : ℤ := Rat.floor (x + 1 / 2)

theorem jsRound_eq_floor (x : ℚ) : jsRound x = ⌊x + 1 / 2⌋ :=
  (Rat.floor_def' (x + 1 / 2)).trans Rat.floor_def.symm

theorem jsRound_sub_le (x : ℚ) : |(jsRound x : ℚ) - x| ≤ 1 / 2 := by
  rw [jsRound_eq_floor]
  have h1 : ((⌊x + 1 / 2⌋ : ℤ) : ℚ) ≤ x + 1 / 2 := Int.floor_le (x + 1 / 2)
  have h2 : x + 1 / 2 < ((⌊x + 1 / 2⌋ : ℤ) : ℚ) + 1 := Int.lt_floor_add_one (x + 1 / 2)
  rw [abs_le]
  constructor <;> linarith

/-! ## Crop session geometry (`setupCropInteraction`, `handleResize`,
`constrainToAspectRatio`, `applyCropAndDownload` in src/app.js)

The crop rectangle lives in preview-canvas coordinates.  `Rect` mirrors
`this.cropState.cropArea` with fields `x`, `y`, `width`, `height`. -/

structure Rect where
  x : ℚ
  y : ℚ
  width : ℚ
  height : ℚ
  deriving DecidableEq, Repr

/-- The eight resize handles (`data-handle` attributes in the crop overlay). -/
inductive Handle
  | nw | n | ne | e | se | s | sw | w
  deriving DecidableEq, Repr

/-- Port of `handleResize(x, y, handle)` from src/app.js.  `W`/`H` are the
crop canvas dimensions (`canvas.width`, `canvas.height`); `px`/`py` the
pointer position.  Each case updates the rectangle only when the source's
guard holds, otherwise the rectangle is left unchanged. -/
def handleResize (W H : ℚ) (area : Rect) (px py : ℚ) : Handle → Rect
  | .nw =>
    let newWidth := area.x + area.width - px
    let newHeight := area.y + area.height - py
    if 0 < newWidth ∧ 0 < newHeight ∧ 0 ≤ px ∧ 0 ≤ py then
      { area with width := newWidth, height := newHeight, x := px, y := py }
    else area
  | .ne =>
    let neWidth := px - area.x
    let neHeight := area.y + area.height - py
    if 0 < neWidth ∧ 0 < neHeight ∧ px ≤ W ∧ 0 ≤ py then
      { area with width := neWidth, height := neHeight, y := py }
    else area
  | .se =>
    if area.x ≤ px ∧ area.y ≤ py ∧ px ≤ W ∧ py ≤ H then
      { area with width := px - area.x, height := py - area.y }
    else area
  | .sw =>
    let swWidth := area.x + area.width - px
    let swHeight := py - area.y
    if 0 < swWidth ∧ 0 < swHeight ∧ 0 ≤ px ∧ py ≤ H then
      { area with width := swWidth, height := swHeight, x := px }
    else area
  | .n =>
    let nHeight := area.y + area.height - py
    if 0 < nHeight ∧ 0 ≤ py then
      { area with height := nHeight, y := py }
    else area
  | .e =>
    if area.x ≤ px ∧ px ≤ W then
      { area with width := px - area.x }
    else area
  | .s =>
    if area.y ≤ py ∧ py ≤ H then
      { area with height := py - area.y }
    else area
  | .w =>
    let wWidth := area.x + area.width - px
    if 0 < wWidth ∧ 0 ≤ px then
      { area with width := wWidth, x := px }
    else area

/-- The comparison `area.width / area.height > ratio` as JavaScript evaluates
it: when `height = 0` the quotient is `+Infinity` for positive width (the
comparison is true), and `NaN` or `-Infinity` otherwise (false). -/
def jsRatioGT (w h ratio : ℚ) : Bool :=
  if h = 0 then decide (0 < w) else decide (ratio < w / h)

/-- The ratio table of `constrainToAspectRatio` in src/app.js. -/
def cropRatios (aspect : String) : Option ℚ :=
  if aspect = "1:1" then some 1
  else if aspect = "4:3" then some (4 / 3)
  else if aspect = "16:9" then some (16 / 9)
  else if aspect = "3:2" then some (3 / 2)
  else if aspect = "21:9" then some (21 / 9)
  else none

/-- The ratio-restoring step of `constrainToAspectRatio`: when the rectangle
is too wide for the ratio the width is recomputed from the height, otherwise
the height is recomputed from the width. -/
def adjustRatio (ratio : ℚ) (area : Rect) : Rect :=
  if jsRatioGT area.width area.height ratio then
    { area with width := area.height * ratio }
  else
    { area with height := area.width / ratio }

/-- The bounds clamp of `constrainToAspectRatio`:
`if (area.x + area.width > canvas.width) area.x = canvas.width - area.width`. -/
def clampX (W : ℚ) (area : Rect) : Rect :=
  if W < area.x + area.width then { area with x := W - area.width } else area

/-- The bounds clamp of `constrainToAspectRatio`:
`if (area.y + area.height > canvas.height) area.y = canvas.height - area.height`. -/
def clampY (H : ℚ) (area : Rect) : Rect :=
  if H < area.y + area.height then { area with y := H - area.height } else area

/-- Core of `constrainToAspectRatio` once a numeric ratio is selected:
shrink one dimension to restore the ratio, then clamp the rectangle's
right/bottom edge back inside the canvas. -/
def constrainWithRatio (ratio W H : ℚ) (area : Rect) : Rect :=
  clampY H (clampX W (adjustRatio ratio area))

/-- Port of `constrainToAspectRatio()` from src/app.js: the `free` setting and
unknown ratio names leave the rectangle unchanged. -/
def constrainToAspectRatio (aspect : String) (W H : ℚ) (area : Rect) : Rect :=
  if aspect = "free" then area
  else
    match cropRatios aspect with
    | none => area
    | some ratio => constrainWithRatio ratio W H area

/-- The `isSelecting` branch of the `mousemove` handler in
`setupCropInteraction`: the rectangle spans anchor `(sx, sy)` to pointer
`(px, py)`, normalized so width and height are non-negative. -/
def drawSelection (sx sy px py : ℚ) : Rect :=
  { x := if 0 < px - sx then sx else px,
    y := if 0 < py - sy then sy else py,
    width := |px - sx|,
    height := |py - sy| }

/-- The `isDragging` branch of the `mousemove` handler: the rectangle origin
moves to `(dx, dy)` clamped so the rectangle never exits the canvas. -/
def dragClamp (W H : ℚ) (area : Rect) (dx dy : ℚ) : Rect :=
  { area with
      x := max 0 (min (W - area.width) dx),
      y := max 0 (min (H - area.height) dy) }

/-- One pointer-driven mutation of the crop selection, as dispatched by the
`mousedown`/`mousemove` handlers of `setupCropInteraction`. -/
inductive CropMut
  | beginDraw (px py : ℚ)
  | drawMove (sx sy px py : ℚ)
  | dragMove (dx dy : ℚ)
  | resizeMove (hd : Handle) (px py : ℚ)
  deriving Repr

/-- The effect of one mutation on `cropState.cropArea`, following the source's
order: a resize or a drawing move is followed by `constrainToAspectRatio`; a
drag only clamps. -/
def cropStep (aspect : String) (W H : ℚ) (area : Rect) : CropMut → Rect
  | .beginDraw px py => { x := px, y := py, width := 0, height := 0 }
  | .drawMove sx sy px py => constrainToAspectRatio aspect W H (drawSelection sx sy px py)
  | .dragMove dx dy => dragClamp W H area dx dy
  | .resizeMove hd px py => constrainToAspectRatio aspect W H (handleResize W H area px py hd)

/-- Coordinates a mutation consumes are pointer positions on the crop canvas
(`e.clientX - rect.left` with the pointer over the canvas). -/
def mutOk (W H : ℚ) : CropMut → Prop
  | .beginDraw px py => 0 ≤ px ∧ px ≤ W ∧ 0 ≤ py ∧ py ≤ H
  | .drawMove sx sy px py =>
      0 ≤ sx ∧ sx ≤ W ∧ 0 ≤ sy ∧ sy ≤ H ∧ 0 ≤ px ∧ px ≤ W ∧ 0 ≤ py ∧ py ≤ H
  | .dragMove _ _ => True
  | .resizeMove _ _ _ => True

instance (W H : ℚ) (m : CropMut) : Decidable (mutOk W H m) := by
  cases m <;> simp [mutOk] <;> infer_instance

/-- The crop-session invariant for a fixed numeric aspect ratio: the rectangle
stays inside the preview canvas, has non-negative dimensions, and a non-empty
selection satisfies `width = ratio * height` exactly. -/
def cropInv (ratio W H : ℚ) (a : Rect) : Prop :=
  0 ≤ a.x ∧ 0 ≤ a.y ∧ 0 ≤ a.width ∧ 0 ≤ a.height ∧
    a.x + a.width ≤ W ∧ a.y + a.height ≤ H ∧
    (0 < a.width → 0 < a.height → a.width = ratio * a.height)

instance (ratio W H : ℚ) (a : Rect) : Decidable (cropInv ratio W H a) := by
  unfold cropInv; infer_instance

/-- The first six conjuncts of `cropInv`: canvas bounds only. -/
def inBounds (W H : ℚ) (a : Rect) : Prop :=
  0 ≤ a.x ∧ 0 ≤ a.y ∧ 0 ≤ a.width ∧ 0 ≤ a.height ∧
    a.x + a.width ≤ W ∧ a.y + a.height ≤ H

instance (W H : ℚ) (a : Rect) : Decidable (inBounds W H a) := by
  unfold inBounds; infer_instance

/-- Preview-to-source coordinate conversion performed by
`applyCropAndDownload`: every component is divided by the stored scale factor
and rounded with `Math.round`. -/
def cropToSource (scale : ℚ) (r : Rect) : ℤ × ℤ × ℤ × ℤ :=
  (jsRound (r.x / scale), jsRound (r.y / scale),
    jsRound (r.width / scale), jsRound (r.height / scale))

/-! ## Format encoder (`formatConfigs`, `applyFormatOptimization`,
`optimizeWebP`, `optimizePNG`, `optimizeAVIF`, `optimizeTIFF`, `optimizeJPEG`
in src/app.js)

A canvas `toDataURL(mime, quality)` call is embedded as the pair of its mime
argument and its quality argument; the pixel payload is opaque and appears
only as the `payload` parameter of `dataUrlRender`. -/

/-- The arguments of the `canvas.toDataURL` call an encoder performs:
`quality = none` when the source omits the quality argument (PNG). -/
structure DataUrl where
  mime : String
  quality : Option ℚ
  deriving DecidableEq, Repr

/-- The textual form `data:<mime>;base64,<payload>` of a data URL produced by
`toDataURL`; the base64 payload is opaque. -/
def dataUrlRender (d : DataUrl) (payload : String) : String :=
  "data:" ++ d.mime ++ ";base64," ++ payload

/-- One entry of `this.formatConfigs`; only the `lossless` flag steers the
encoders, the remaining numeric settings are carried for fidelity. -/
structure FormatConfig where
  lossless : Bool
  quality : Option ℚ := none
  deriving DecidableEq, Repr

/-- `this.formatConfigs` from the constructor in src/app.js. -/
def formatConfigs (format : String) : Option FormatConfig :=
  if format = "png" then some { lossless := true }
  else if format = "webp" then some { lossless := true, quality := some 100 }
  else if format = "avif" then some { lossless := true, quality := some 100 }
  else if format = "tiff" then some { lossless := true }
  else if format = "jpg" then some { lossless := false, quality := some 95 }
  else none

/-- Port of `optimizeWebP(canvas, config, quality)`. -/
def optimizeWebP (config : FormatConfig) (quality : ℚ) : DataUrl :=
  if config.lossless then { mime := "image/webp", quality := some 1 }
  else { mime := "image/webp", quality := some quality }

/-- Port of `optimizePNG(canvas, config)`: PNG is inherently lossless, no
quality argument is passed. -/
def optimizePNG (_config : FormatConfig) : DataUrl :=
  { mime := "image/png", quality := none }

/-- Port of `optimizeAVIF(canvas, config, quality)`. -/
def optimizeAVIF (config : FormatConfig) (quality : ℚ) : DataUrl :=
  if config.lossless then { mime := "image/avif", quality := some 1 }
  else { mime := "image/avif", quality := some quality }

/-- Port of `optimizeTIFF(canvas, config)`: browsers cannot encode TIFF, the
function substitutes a PNG encode (and warns on the console). -/
def optimizeTIFF (_config : FormatConfig) : DataUrl :=
  { mime := "image/png", quality := none }

/-- Port of `optimizeJPEG(canvas, config, quality)`: the effective quality is
`Math.max(0.85, quality)`. -/
def optimizeJPEG (_config : FormatConfig) (quality : ℚ) : DataUrl :=
  { mime := "image/jpeg", quality := some (max (85 / 100) quality) }

/-- Port of `applyFormatOptimization(canvas, format, quality)`: looks up the
format configuration (defaulting to the PNG entry) and dispatches on the
format string; unknown formats pass through to a generic `toDataURL`. -/
def applyFormatOptimization (format : String) (quality : ℚ) : DataUrl :=
  let formatConfig := (formatConfigs format).getD { lossless := true }
  if format = "webp" then optimizeWebP formatConfig quality
  else if format = "png" then optimizePNG formatConfig
  else if format = "avif" then optimizeAVIF formatConfig quality
  else if format = "tiff" then optimizeTIFF formatConfig
  else if format = "jpg" ∨ format = "jpeg" then optimizeJPEG formatConfig quality
  else { mime := "image/" ++ format, quality := some quality }

/-! ## Transform pipeline dimension computation (`applyLosslessProcessing`
in src/app.js)

JavaScript treats `0`, `null` and `NaN` as falsy; `batchProcess` turns the
inputs into `parseInt(...) || null`, so a requested dimension is either
absent or a positive integer.  `truthyDim` mirrors the `width || ...` tests. -/

/-- Truthiness of an optional numeric dimension (`width` in `width || h`). -/
def truthyDim (o : Option ℕ) : Bool :=
  match o with
  | none => false
  | some n => n != 0

/-- The target-dimension computation at the top of `applyLosslessProcessing`:
missing dimensions default to the natural ones; with aspect preservation on
and exactly one dimension given, the other is derived from the natural aspect
ratio and rounded. -/
def computeTargetDims (nw nh : ℕ) (width height : Option ℕ) (maintainAspect : Bool) :
    ℤ × ℤ :=
  let tw0 : ℤ := if truthyDim width then (width.getD 0 : ℤ) else (nw : ℤ)
  let th0 : ℤ := if truthyDim height then (height.getD 0 : ℤ) else (nh : ℤ)
  if (truthyDim width || truthyDim height) && maintainAspect then
    let aspectRatio : ℚ := (nw : ℚ) / (nh : ℚ)
    if truthyDim width && !truthyDim height then
      (tw0, jsRound ((width.getD 0 : ℚ) / aspectRatio))
    else if truthyDim height && !truthyDim width then
      (jsRound ((height.getD 0 : ℚ) * aspectRatio), th0)
    else (tw0, th0)
  else (tw0, th0)

/-- The settings object handed to `processImageWithSettings` /
`applyLosslessProcessing` (format, quality fraction, optional dimensions,
aspect-preservation flag). -/
structure TransformSettings where
  format : String
  quality : ℚ := 1
  width : Option ℕ := none
  height : Option ℕ := none
  maintainAspect : Bool := true
  deriving Repr

/-! ## Application state: image list, storage counters, batch driver
(`addImage`, `processImageWithSettings`, `processImageLossless`,
`batchProcess`, `removeImage` in src/app.js)

An `ImageRec` mirrors the `imageData` record built by `addImage`.  The two
facts about an image the embedding cannot compute — whether `new Image()`
succeeds on its source, and how many bytes the encoder emits for it — are
carried as the fields `decodeOk` and `artifactSize`. -/

structure ImageRec where
  id : ℕ
  size : ℤ
  decodeOk : Bool
  artifactSize : ℤ
  processed : Bool := false
  processedSize : Option ℤ := none
  processedFormat : Option String := none
  processedSrc : Option DataUrl := none
  deriving DecidableEq, Repr

/-- The slice of `ImageFlowApp`'s mutable state the transform pipeline and
storage accounting touch: the image list, the two aggregate byte counters of
`this.storageData`, the `totalProcessed` counter and the notification toasts
emitted so far. -/
structure AppState where
  images : List ImageRec
  originalSize : ℤ := 0
  compressedSize : ℤ := 0
  totalProcessed : ℕ := 0
  notifications : List String := []
  deriving Repr

/-- Replace the first image whose id matches (the in-place mutation of the
record found by `this.images.find(...)`). -/
def updateFirst (imageId : ℕ) (f : ImageRec → ImageRec) : List ImageRec → List ImageRec
  | [] => []
  | im :: rest =>
    if im.id = imageId then f im :: rest else im :: updateFirst imageId f rest

/-- Remove the first image whose id matches (the `findIndex` + `splice` pair
of `removeImage`). -/
def removeFirst (imageId : ℕ) : List ImageRec → List ImageRec
  | [] => []
  | im :: rest =>
    if im.id = imageId then rest else im :: removeFirst imageId rest

/-- The field updates `processImageLossless` performs on the image record
when `applyLosslessProcessing` succeeds. -/
def applyTransformRecord (s : TransformSettings) (im : ImageRec) : ImageRec :=
  { im with
      processed := true,
      processedSrc := some (applyFormatOptimization s.format s.quality),
      processedSize := some im.artifactSize,
      processedFormat := some s.format }

/-- Port of `processImageWithSettings(imageId, settings)` together with the
state effects of `processImageLossless`: a missing id is a silent no-op
(`if (!image) return`); a decode failure is caught, reported with an error
notification and rethrown (the returned flag records the rethrow); a success
updates the image in place and accumulates `compressedSize` and
`totalProcessed`. -/
def processImageWithSettings (st : AppState) (imageId : ℕ) (s : TransformSettings) :
    AppState × Bool :=
  match st.images.find? (fun im => im.id = imageId) with
  | none => (st, false)
  | some im =>
    if im.decodeOk then
      ({ st with
          images := updateFirst imageId (applyTransformRecord s) st.images,
          compressedSize := st.compressedSize + im.artifactSize,
          totalProcessed := st.totalProcessed + 1 }, false)
    else
      ({ st with notifications := st.notifications ++ ["Képfeldolgozás sikertelen!"] },
        true)

/-- The `for` loop of `batchProcess`: items are awaited in input order; a
rethrown per-item failure is not caught, so it aborts the remaining
iterations (the `Bool` result records the abort). -/
def batchGo (s : TransformSettings) : AppState → List ℕ → AppState × Bool
  | st, [] => (st, false)
  | st, imageId :: rest =>
    if (processImageWithSettings st imageId s).2 then
      ((processImageWithSettings st imageId s).1, true)
    else batchGo s (processImageWithSettings st imageId s).1 rest

/-- Port of `batchProcess()`: iterate the per-image transform over the image
list; only a run that aborts skips the completion notification. -/
def batchProcess (st : AppState) (s : TransformSettings) : AppState × Bool :=
  if (batchGo s st (st.images.map ImageRec.id)).2 then
    batchGo s st (st.images.map ImageRec.id)
  else
    ({ (batchGo s st (st.images.map ImageRec.id)).1 with
        notifications := (batchGo s st (st.images.map ImageRec.id)).1.notifications
          ++ ["Batch feldolgozás befejezve!"] },
      false)

/-- Port of `addImage`'s success path: the record is appended with the
processed fields cleared and `originalSize` grows by the file size. -/
def addImage (st : AppState) (imageId : ℕ) (size : ℤ) (decodeOk : Bool)
    (artifactSize : ℤ) : AppState :=
  { st with
      images := st.images ++
        [{ id := imageId, size := size, decodeOk := decodeOk,
           artifactSize := artifactSize }],
      originalSize := st.originalSize + size }

/-- Port of `removeImage(imageId)`: a missing id is a no-op; otherwise the
image's size is subtracted from `originalSize`, its `processedSize` is
subtracted from `compressedSize` when truthy (`if (image.processedSize)`),
and the record is spliced out. -/
def removeImage (st : AppState) (imageId : ℕ) : AppState :=
  match st.images.find? (fun im => im.id = imageId) with
  | none => st
  | some im =>
    { st with
        images := removeFirst imageId st.images,
        originalSize := st.originalSize - im.size,
        compressedSize :=
          match im.processedSize with
          | some s => if s = 0 then st.compressedSize else st.compressedSize - s
          | none => st.compressedSize,
        notifications := st.notifications ++ ["Kép törölve!"] }

/-- A user-level operation on the shared image list and counters, for the
storage-counter invariant: load an image, transform one image with given
settings, delete one image. -/
inductive StoreOp
  | add (imageId : ℕ) (size : ℤ) (decodeOk : Bool) (artifactSize : ℤ)
  | transform (imageId : ℕ) (s : TransformSettings)
  | remove (imageId : ℕ)

def applyStoreOp (st : AppState) : StoreOp → AppState
  | .add imageId size decodeOk artifactSize => addImage st imageId size decodeOk artifactSize
  | .transform imageId s => (processImageWithSettings st imageId s).1
  | .remove imageId => removeImage st imageId

def applyStoreOps (st : AppState) (ops : List StoreOp) : AppState :=
  ops.foldl applyStoreOp st

/-- Sum of the byte sizes of the images currently in the list. -/
def sumSizes (l : List ImageRec) : ℤ :=
  (l.map ImageRec.size).sum

/-- An image's contribution to `compressedSize`: its processed artifact size,
or `0` when it has none. -/
def contrib (im : ImageRec) : ℤ :=
  match im.processedSize with
  | some s => s
  | none => 0

/-- Sum of the processed artifact sizes of the images currently in the list. -/
def sumContribs (l : List ImageRec) : ℤ :=
  (l.map contrib).sum

/-- The claimed pairing of the aggregate storage counters with the image
list. -/
def countersPaired (st : AppState) : Prop :=
  st.originalSize = sumSizes st.images ∧ st.compressedSize = sumContribs st.images

instance (st : AppState) : Decidable (countersPaired st) := by
  unfold countersPaired; infer_instance

/-- Ids of the transform operations in a sequence of store operations. -/
def transformIds (ops : List StoreOp) : List ℕ :=
  ops.filterMap fun op =>
    match op with
    | .transform imageId _ => some imageId
    | _ => none

/-! ## Peer session manager (`handleIncomingConnection`, `connectManual`,
`sendFile` in src/app.js)

A connection is kept by its remote peer id together with the state of the
underlying data channel and the direction it was opened in.  The inbound
path (`handleIncomingConnection`) registers a `close` handler that removes
the connection from `this.connections`; the outbound path (`connectManual`)
registers only `open` and `error` handlers, so a remote close leaves the
connection in the active set. -/

structure PeerConn where
  peer : String
  isOpen : Bool
  inbound : Bool
  deriving DecidableEq, Repr

structure PeerState where
  connections : List PeerConn
  images : List ImageRec
  notifications : List String := []
  /-- Every `connection.send(fileData)` call actually performed, with the
  channel state of the target connection at that moment. -/
  transmissions : List (String × Bool) := []
  deriving Repr

/-- Port of `handleIncomingConnection(conn)`: the connection is registered
immediately (data channel already open). -/
def handleIncomingConnection (st : PeerState) (peer : String) : PeerState :=
  { st with connections := st.connections ++ [{ peer := peer, isOpen := true, inbound := true }] }

/-- The `conn.on('open', ...)` callback of `connectManual()`: the outbound
connection is registered and a success notification shown. -/
def connectManualOpen (st : PeerState) (peer : String) : PeerState :=
  { st with
      connections := st.connections ++ [{ peer := peer, isOpen := true, inbound := false }],
      notifications := st.notifications ++ ["Eszköz sikeresen csatlakoztatva!"] }

/-- A `close` event on the underlying data channel of every connection with
the given remote peer: the channel leaves the `open` state, and the handler
registered by `handleIncomingConnection` (inbound connections only) removes
the connection from the active set.  Outbound connections have no `close`
handler in `connectManual`, so they stay registered. -/
def connectionCloseEvent (st : PeerState) (peer : String) : PeerState :=
  { st with
      connections := st.connections.filterMap fun c =>
        if c.peer = peer then
          if c.inbound then none else some { c with isOpen := false }
        else some c }

/-- Port of `sendFile(imageId, connectionId)`: when either lookup fails a
send-failure notification is shown and nothing is transmitted; otherwise the
file envelope is sent on the found connection with no check of its channel
state, and a success notification is shown. -/
def sendFile (st : PeerState) (imageId : ℕ) (connectionId : String) : PeerState :=
  match st.images.find? (fun im => im.id = imageId),
      st.connections.find? (fun c => c.peer = connectionId) with
  | some _, some c =>
    { st with
        transmissions := st.transmissions ++ [(connectionId, c.isOpen)],
        notifications := st.notifications ++ ["Fájl elküldve!"] }
  | _, _ =>
    { st with notifications := st.notifications ++ ["Fájl küldése sikertelen!"] }

/-! ## Claims about the format encoder and the dimension computation -/

/-- Claim C7: for every pixel surface and requested quality `q`, the JPEG
encoder passes `max(0.85, q)` to the underlying encode, so the effective
quality is at least `0.85`; the `jpg` and `jpeg` dispatch branches of
`applyFormatOptimization` both use it. -/
theorem C7_jpeg_quality_floor :
    ∀ (config : FormatConfig) (q : ℚ),
      optimizeJPEG config q = { mime := "image/jpeg", quality := some (max (85 / 100) q) } ∧
      (85 / 100 : ℚ) ≤ max (85 / 100) q ∧
      (applyFormatOptimization "jpg" q).quality = some (max (85 / 100) q) ∧
      (applyFormatOptimization "jpeg" q).quality = some (max (85 / 100) q) := by
  intro config q
  exact ⟨rfl, le_max_left _ _, rfl, rfl⟩

/-- Claim C8: when the WebP (resp. AVIF) format configuration is marked
lossless, the encoder is invoked with quality forced to `1.0` regardless of
the requested quality, and with the requested quality unchanged otherwise;
the shipped `formatConfigs` mark both formats lossless, so the dispatch
through `applyFormatOptimization` always forces quality `1.0` for them. -/
theorem C8_lossless_forces_max_quality :
    ∀ (config : FormatConfig) (q : ℚ),
      (optimizeWebP config q).quality = some (if config.lossless then 1 else q) ∧
      (optimizeAVIF config q).quality = some (if config.lossless then 1 else q) ∧
      (applyFormatOptimization "webp" q).quality = some 1 ∧
      (applyFormatOptimization "avif" q).quality = some 1 := by
  intro config q
  refine ⟨?_, ?_, rfl, rfl⟩ <;>
    cases hc : config.lossless <;> simp [optimizeWebP, optimizeAVIF, hc]

/-- Claim C10: a successful transform with requested format `tiff` stores
`processedFormat = "tiff"` on the image record, while the stored artifact is
the PNG substitute produced by `optimizeTIFF` — a data URL whose text starts
with `data:image/png`.  The substitution is not reflected in the recorded
format metadata. -/
theorem C10_tiff_metadata_mismatch :
    ∀ (im : ImageRec) (s : TransformSettings), s.format = "tiff" →
      (applyTransformRecord s im).processedFormat = some "tiff" ∧
      ∃ d : DataUrl, (applyTransformRecord s im).processedSrc = some d ∧
        d.mime = "image/png" ∧
        ∀ payload : String,
          dataUrlRender d payload = "data:image/png" ++ (";base64," ++ payload) := by
  intro im s hs
  refine ⟨by simp [applyTransformRecord, hs],
    applyFormatOptimization "tiff" s.quality, by simp [applyTransformRecord, hs], rfl,
    fun payload => ?_⟩
  show "data:" ++ "image/png" ++ ";base64," ++ payload = _
  rw [String.append_assoc]
  rfl

/-- Witness for C10 at a concrete image and settings object. -/
theorem C10_tiff_metadata_mismatch_witness :
    (applyTransformRecord { format := "tiff" }
          { id := 1, size := 10, decodeOk := true, artifactSize := 4 }).processedFormat
        = some "tiff" ∧
      ∃ d : DataUrl,
        (applyTransformRecord { format := "tiff" }
            { id := 1, size := 10, decodeOk := true, artifactSize := 4 }).processedSrc
          = some d ∧
        d.mime = "image/png" ∧
        ∀ payload : String,
          dataUrlRender d payload = "data:image/png" ++ (";base64," ++ payload) :=
  C10_tiff_metadata_mismatch
    { id := 1, size := 10, decodeOk := true, artifactSize := 4 }
    { format := "tiff" } rfl

/-- Claim C6: with aspect preservation on and exactly one target dimension
given and positive, `applyLosslessProcessing` derives the other dimension as
`Math.round(given * naturalOther / naturalGiven)`, to within the rounding
half-unit of the exact value; the spec's scenario `4000×3000` with
`width = 800` yields `800×600`. -/
theorem C6_aspect_derivation (nw nh w h : ℕ) (hnw : 0 < nw) (hnh : 0 < nh)
    (hw : 0 < w) (hh : 0 < h) :
    (computeTargetDims nw nh (some w) none true =
        ((w : ℤ), jsRound ((w : ℚ) * (nh : ℚ) / (nw : ℚ))) ∧
      |(jsRound ((w : ℚ) * (nh : ℚ) / (nw : ℚ)) : ℚ) - (w : ℚ) * (nh : ℚ) / (nw : ℚ)|
        ≤ 1 / 2) ∧
    (computeTargetDims nw nh none (some h) true =
        (jsRound ((h : ℚ) * (nw : ℚ) / (nh : ℚ)), (h : ℤ)) ∧
      |(jsRound ((h : ℚ) * (nw : ℚ) / (nh : ℚ)) : ℚ) - (h : ℚ) * (nw : ℚ) / (nh : ℚ)|
        ≤ 1 / 2) ∧
    computeTargetDims 4000 3000 (some 800) none true = (800, 600) := by
  have hw' : (w : ℚ) / ((nw : ℚ) / (nh : ℚ)) = (w : ℚ) * (nh : ℚ) / (nw : ℚ) := by
    rw [div_div_eq_mul_div]
  have hh' : (h : ℚ) * ((nw : ℚ) / (nh : ℚ)) = (h : ℚ) * (nw : ℚ) / (nh : ℚ) := by
    ring
  have hwt : truthyDim (some w) = true := by
    simp [truthyDim, Nat.pos_iff_ne_zero.mp hw]
  have hht : truthyDim (some h) = true := by
    simp [truthyDim, Nat.pos_iff_ne_zero.mp hh]
  have h6 : ((800 : ℚ) / ((4000 : ℚ) / (3000 : ℚ))) = 600 := by norm_num
  have h7 : jsRound 600 = 600 := by rw [jsRound_eq_floor]; norm_num
  refine ⟨⟨?_, jsRound_sub_le _⟩, ⟨?_, jsRound_sub_le _⟩, ?_⟩
  · simp [computeTargetDims, truthyDim, hwt, hw', Nat.pos_iff_ne_zero.mp hw]
  · simp [computeTargetDims, truthyDim, hht, hh', Nat.pos_iff_ne_zero.mp hh]
  · have hwt8 : truthyDim (some 800) = true := by simp [truthyDim]
    simp only [computeTargetDims, hwt8, truthyDim, Bool.true_and, Bool.and_true,
      Bool.not_false, Option.getD_some]
    norm_num [h6, h7]

/-- Witness for C6 on the spec's scenario (4000×3000, width 800). -/
theorem C6_aspect_derivation_witness :
    (0 < 4000 ∧ 0 < 3000 ∧ 0 < 800 ∧ 0 < 600) ∧
      computeTargetDims 4000 3000 (some 800) none true = (800, 600) :=
  ⟨by decide, (C6_aspect_derivation 4000 3000 800 600 (by decide) (by decide)
    (by decide) (by decide)).2.2⟩

/-- One component of the crop round trip: dividing by the scale, rounding,
and scaling back moves a coordinate by at most one pixel when `0 < s ≤ 1`. -/
theorem roundtrip_component (s c : ℚ) (h1 : 0 < s) (h2 : s ≤ 1) :
    |(jsRound (c / s) : ℚ) * s - c| ≤ 1 := by
  have hs : s ≠ 0 := ne_of_gt h1
  have hb := jsRound_sub_le (c / s)
  have heq : (jsRound (c / s) : ℚ) * s - c = ((jsRound (c / s) : ℚ) - c / s) * s := by
    field_simp
  rw [heq, abs_mul, abs_of_pos h1]
  calc |(jsRound (c / s) : ℚ) - c / s| * s ≤ (1 / 2) * 1 :=
        mul_le_mul hb h2 h1.le (by norm_num)
    _ ≤ 1 := by norm_num

/-- Claim C9: for a scale factor `0 < s ≤ 1`, converting a preview-space crop
rectangle to source space with `Math.round(coordinate / s)` (as
`applyCropAndDownload` does) and mapping back by multiplying by `s` recovers
every component of the original rectangle within one pixel. -/
theorem C9_crop_roundtrip (s : ℚ) (r : Rect) (h1 : 0 < s) (h2 : s ≤ 1) :
    |((cropToSource s r).1 : ℚ) * s - r.x| ≤ 1 ∧
    |((cropToSource s r).2.1 : ℚ) * s - r.y| ≤ 1 ∧
    |((cropToSource s r).2.2.1 : ℚ) * s - r.width| ≤ 1 ∧
    |((cropToSource s r).2.2.2 : ℚ) * s - r.height| ≤ 1 :=
  ⟨roundtrip_component s r.x h1 h2, roundtrip_component s r.y h1 h2,
    roundtrip_component s r.width h1 h2, roundtrip_component s r.height h1 h2⟩

/-! ## Claims about the resize handles (C5) -/

/-- A resize keeps the rectangle inside the canvas and its dimensions
non-negative: every guard in `handleResize` checks the moved corner against
the canvas, and a failing guard leaves the rectangle unchanged. -/
theorem handleResize_inBounds (W H : ℚ) (a : Rect) (px py : ℚ) (hd : Handle)
    (hb : inBounds W H a) : inBounds W H (handleResize W H a px py hd) := by
  obtain ⟨hx, hy, hw, hh, hxw, hyh⟩ := hb
  cases hd
  case nw =>
    rw [handleResize]; split
    · rename_i hg; obtain ⟨h1, h2, h3, h4⟩ := hg
      exact ⟨h3, h4, h1.le, h2.le, by dsimp only; linarith, by dsimp only; linarith⟩
    · exact ⟨hx, hy, hw, hh, hxw, hyh⟩
  case ne =>
    rw [handleResize]; split
    · rename_i hg; obtain ⟨h1, h2, h3, h4⟩ := hg
      exact ⟨hx, h4, h1.le, h2.le, by dsimp only; linarith, by dsimp only; linarith⟩
    · exact ⟨hx, hy, hw, hh, hxw, hyh⟩
  case se =>
    rw [handleResize]; split
    · rename_i hg; obtain ⟨h1, h2, h3, h4⟩ := hg
      exact ⟨hx, hy, by dsimp only; linarith, by dsimp only; linarith,
        by dsimp only; linarith, by dsimp only; linarith⟩
    · exact ⟨hx, hy, hw, hh, hxw, hyh⟩
  case sw =>
    rw [handleResize]; split
    · rename_i hg; obtain ⟨h1, h2, h3, h4⟩ := hg
      exact ⟨h3, hy, h1.le, h2.le, by dsimp only; linarith, by dsimp only; linarith⟩
    · exact ⟨hx, hy, hw, hh, hxw, hyh⟩
  case n =>
    rw [handleResize]; split
    · rename_i hg; obtain ⟨h1, h2⟩ := hg
      exact ⟨hx, h2, hw, h1.le, hxw, by dsimp only; linarith⟩
    · exact ⟨hx, hy, hw, hh, hxw, hyh⟩
  case e =>
    rw [handleResize]; split
    · rename_i hg; obtain ⟨h1, h2⟩ := hg
      exact ⟨hx, hy, by dsimp only; linarith, hh, by dsimp only; linarith, hyh⟩
    · exact ⟨hx, hy, hw, hh, hxw, hyh⟩
  case s =>
    rw [handleResize]; split
    · rename_i hg; obtain ⟨h1, h2⟩ := hg
      exact ⟨hx, hy, hw, by dsimp only; linarith, hxw, by dsimp only; linarith⟩
    · exact ⟨hx, hy, hw, hh, hxw, hyh⟩
  case w =>
    rw [handleResize]; split
    · rename_i hg; obtain ⟨h1, h2⟩ := hg
      exact ⟨h2, hy, h1.le, hh, by dsimp only; linarith, hyh⟩
    · exact ⟨hx, hy, hw, hh, hxw, hyh⟩

/-- For the five handles whose guards are strict, a resize preserves strict
positivity of both dimensions. -/
theorem handleResize_pos (W H : ℚ) (a : Rect) (px py : ℚ) (hd : Handle)
    (hdmem : hd = .nw ∨ hd = .ne ∨ hd = .sw ∨ hd = .n ∨ hd = .w)
    (hw : 0 < a.width) (hh : 0 < a.height) :
    0 < (handleResize W H a px py hd).width ∧
      0 < (handleResize W H a px py hd).height := by
  rcases hdmem with rfl | rfl | rfl | rfl | rfl <;> rw [handleResize] <;> split <;>
    first
      | exact ⟨hw, hh⟩
      | (rename_i hg; exact ⟨hg.1, hg.2.1⟩)
      | (rename_i hg; exact ⟨hw, hg.1⟩)
      | (rename_i hg; exact ⟨hg.1, hh⟩)

/-- Counterexample to claim C5 as stated: on the `se` handle the guard uses
non-strict comparisons, so a pointer at the rectangle's left edge is accepted
and collapses the width to `0` — the update is neither rejected nor does it
preserve `width > 0`. -/
theorem C5_counterexample :
    handleResize 100 100 ⟨10, 10, 20, 20⟩ 10 30 Handle.se ≠ ⟨10, 10, 20, 20⟩ ∧
      ¬ 0 < (handleResize 100 100 ⟨10, 10, 20, 20⟩ 10 30 Handle.se).width := by
  have hres : handleResize 100 100 ⟨10, 10, 20, 20⟩ 10 30 Handle.se = ⟨10, 10, 0, 20⟩ := by
    rw [handleResize, if_pos (by norm_num)]
    show Rect.mk 10 10 (10 - 10) (30 - 10) = _
    norm_num
  rw [hres]
  constructor
  · intro hcontra
    rw [Rect.mk.injEq] at hcontra
    norm_num at hcontra
  · norm_num

/-- Claim C5 (amended): for every crop rectangle with positive dimensions
inside the canvas, `handleResize` rejects updates that would make a dimension
negative or move the tracked corner out of canvas bounds — afterwards the
rectangle is still inside the canvas with `width ≥ 0` and `height ≥ 0` — and
for the handles `nw`, `ne`, `sw`, `n`, `w` (whose guards are strict) both
dimensions stay strictly positive; the handles `se`, `e`, `s` accept an
update that collapses a dimension to exactly `0`. -/
theorem C5_resize_guard (W H : ℚ) (a : Rect) (px py : ℚ) (hd : Handle)
    (hb : inBounds W H a) (hw : 0 < a.width) (hh : 0 < a.height) :
    inBounds W H (handleResize W H a px py hd) ∧
      0 ≤ (handleResize W H a px py hd).width ∧
      0 ≤ (handleResize W H a px py hd).height ∧
      ((hd = .nw ∨ hd = .ne ∨ hd = .sw ∨ hd = .n ∨ hd = .w) →
        0 < (handleResize W H a px py hd).width ∧
          0 < (handleResize W H a px py hd).height) := by
  have hib := handleResize_inBounds W H a px py hd hb
  exact ⟨hib, hib.2.2.1, hib.2.2.2.1,
    fun hmem => handleResize_pos W H a px py hd hmem hw hh⟩

/-- Witness for the amended C5 on a concrete rectangle and pointer. -/
theorem C5_resize_guard_witness :
    inBounds 100 100 (handleResize 100 100 ⟨10, 10, 20, 20⟩ 40 50 Handle.nw) ∧
      0 ≤ (handleResize 100 100 ⟨10, 10, 20, 20⟩ 40 50 Handle.nw).width ∧
      0 ≤ (handleResize 100 100 ⟨10, 10, 20, 20⟩ 40 50 Handle.nw).height ∧
      ((Handle.nw = .nw ∨ Handle.nw = .ne ∨ Handle.nw = .sw ∨ Handle.nw = .n ∨
          Handle.nw = .w) →
        0 < (handleResize 100 100 ⟨10, 10, 20, 20⟩ 40 50 Handle.nw).width ∧
          0 < (handleResize 100 100 ⟨10, 10, 20, 20⟩ 40 50 Handle.nw).height) :=
  C5_resize_guard 100 100 ⟨10, 10, 20, 20⟩ 40 50 Handle.nw
    (by refine ⟨?_, ?_, ?_, ?_, ?_, ?_⟩ <;> norm_num)
    (by norm_num) (by norm_num)

/-! ## Crop aspect-ratio invariant (C4) -/

theorem jsRatioGT_true_iff (w h ratio : ℚ) :
    jsRatioGT w h ratio = true ↔ (if h = 0 then 0 < w else ratio < w / h) := by
  by_cases hz : h = 0 <;> simp [jsRatioGT, hz]

/-- `adjustRatio` keeps the origin, shrinks one dimension and restores
`width = ratio * height` exactly (under non-negative inputs). -/
theorem adjustRatio_spec (ratio : ℚ) (hr : 0 < ratio) (a : Rect)
    (hw : 0 ≤ a.width) (hh : 0 ≤ a.height) :
    (adjustRatio ratio a).x = a.x ∧ (adjustRatio ratio a).y = a.y ∧
      0 ≤ (adjustRatio ratio a).width ∧ 0 ≤ (adjustRatio ratio a).height ∧
      (adjustRatio ratio a).width ≤ a.width ∧
      (adjustRatio ratio a).height ≤ a.height ∧
      (adjustRatio ratio a).width = ratio * (adjustRatio ratio a).height := by
  rw [adjustRatio]
  by_cases hg : jsRatioGT a.width a.height ratio = true
  · rw [if_pos hg]
    rw [jsRatioGT_true_iff] at hg
    refine ⟨rfl, rfl, mul_nonneg hh hr.le, hh, ?_, le_refl _, mul_comm a.height ratio⟩
    show a.height * ratio ≤ a.width
    by_cases hz : a.height = 0
    · rw [hz, zero_mul]; exact hw
    · rw [if_neg hz] at hg
      have hhpos : 0 < a.height := lt_of_le_of_ne hh (Ne.symm hz)
      have hlt : ratio * a.height < a.width := by
        rw [lt_div_iff₀ hhpos] at hg; linarith
      linarith [mul_comm a.height ratio]
  · rw [if_neg hg]
    have hg' : ¬ (if a.height = 0 then 0 < a.width else ratio < a.width / a.height) :=
      fun hcon => hg ((jsRatioGT_true_iff a.width a.height ratio).mpr hcon)
    refine ⟨rfl, rfl, hw, div_nonneg hw hr.le, le_refl _, ?_, ?_⟩
    · show a.width / ratio ≤ a.height
      by_cases hz : a.height = 0
      · rw [if_pos hz] at hg'
        have hw0 : a.width = 0 := le_antisymm (not_lt.mp hg') hw
        rw [hw0, zero_div, hz]
      · rw [if_neg hz] at hg'
        have hhpos : 0 < a.height := lt_of_le_of_ne hh (Ne.symm hz)
        have h2 : a.width ≤ ratio * a.height := by
          rw [not_lt, div_le_iff₀ hhpos] at hg'; linarith
        rw [div_le_iff₀ hr]
        linarith [mul_comm a.height ratio]
    · show a.width = ratio * (a.width / ratio)
      field_simp

theorem clampX_eq_of_le (W : ℚ) (a : Rect) (h : a.x + a.width ≤ W) :
    clampX W a = a := by
  rw [clampX, if_neg (not_lt.mpr h)]

theorem clampY_eq_of_le (H : ℚ) (a : Rect) (h : a.y + a.height ≤ H) :
    clampY H a = a := by
  rw [clampY, if_neg (not_lt.mpr h)]

/-- The heart of the crop invariant: after `constrainWithRatio` on a
rectangle inside the canvas, the rectangle is still inside the canvas and
satisfies `width = ratio * height` exactly (the two clamps never fire because
the adjustment only shrinks dimensions). -/
theorem constrainWithRatio_inv (ratio W H : ℚ) (hr : 0 < ratio) (a : Rect)
    (hb : inBounds W H a) : cropInv ratio W H (constrainWithRatio ratio W H a) := by
  obtain ⟨hx, hy, hw, hh, hxw, hyh⟩ := hb
  obtain ⟨ax, ay, aw, ah, awle, ahle, arat⟩ := adjustRatio_spec ratio hr a hw hh
  have hxa : (adjustRatio ratio a).x + (adjustRatio ratio a).width ≤ W := by
    rw [ax]; linarith
  have hya : (adjustRatio ratio a).y + (adjustRatio ratio a).height ≤ H := by
    rw [ay]; linarith
  rw [constrainWithRatio, clampX_eq_of_le W _ hxa, clampY_eq_of_le H _ hya]
  refine ⟨?_, ?_, aw, ah, hxa, hya, fun _ _ => arat⟩
  · rw [ax]; exact hx
  · rw [ay]; exact hy

/-- When the ratio table resolves the aspect name, `constrainToAspectRatio`
is `constrainWithRatio` for that ratio. -/
theorem constrainToAspectRatio_eq (aspect : String) (ratio W H : ℚ)
    (hc : cropRatios aspect = some ratio) (a : Rect) :
    constrainToAspectRatio aspect W H a = constrainWithRatio ratio W H a := by
  rw [constrainToAspectRatio]
  have hfree : aspect ≠ "free" := by
    intro he
    rw [he] at hc
    simp [cropRatios] at hc
  rw [if_neg hfree, hc]

/-- A freshly drawn selection from two in-canvas points is inside the
canvas. -/
theorem drawSelection_inBounds (W H sx sy px py : ℚ)
    (h1 : 0 ≤ sx) (h2 : sx ≤ W) (h3 : 0 ≤ sy) (h4 : sy ≤ H)
    (h5 : 0 ≤ px) (h6 : px ≤ W) (h7 : 0 ≤ py) (h8 : py ≤ H) :
    inBounds W H (drawSelection sx sy px py) := by
  refine ⟨?_, ?_, abs_nonneg _, abs_nonneg _, ?_, ?_⟩
  · show (0 : ℚ) ≤ if 0 < px - sx then sx else px
    split <;> assumption
  · show (0 : ℚ) ≤ if 0 < py - sy then sy else py
    split <;> assumption
  · show (if 0 < px - sx then sx else px) + |px - sx| ≤ W
    rcases lt_or_le 0 (px - sx) with hlt | hle
    · rw [if_pos hlt, abs_of_pos hlt]; linarith
    · rw [if_neg (not_lt.mpr hle), abs_of_nonpos (by linarith)]; linarith
  · show (if 0 < py - sy then sy else py) + |py - sy| ≤ H
    rcases lt_or_le 0 (py - sy) with hlt | hle
    · rw [if_pos hlt, abs_of_pos hlt]; linarith
    · rw [if_neg (not_lt.mpr hle), abs_of_nonpos (by linarith)]; linarith

/-- Dragging preserves the crop invariant: the origin is clamped into the
canvas and the dimensions are untouched. -/
theorem dragClamp_inv (ratio W H : ℚ) (a : Rect) (dx dy : ℚ)
    (h : cropInv ratio W H a) : cropInv ratio W H (dragClamp W H a dx dy) := by
  obtain ⟨hx, hy, hw, hh, hxw, hyh, hrat⟩ := h
  rw [dragClamp]
  refine ⟨le_max_left 0 _, le_max_left 0 _, hw, hh, ?_, ?_, hrat⟩ <;> dsimp only
  · have hWw : 0 ≤ W - a.width := by linarith
    have : max 0 (min (W - a.width) dx) ≤ W - a.width :=
      max_le hWw (min_le_left _ _)
    linarith
  · have hHh : 0 ≤ H - a.height := by linarith
    have : max 0 (min (H - a.height) dy) ≤ H - a.height :=
      max_le hHh (min_le_left _ _)
    linarith

theorem cropInv_inBounds (ratio W H : ℚ) (a : Rect) (h : cropInv ratio W H a) :
    inBounds W H a :=
  ⟨h.1, h.2.1, h.2.2.1, h.2.2.2.1, h.2.2.2.2.1, h.2.2.2.2.2.1⟩

/-- Every single crop mutation preserves the invariant. -/
theorem cropStep_inv (aspect : String) (ratio W H : ℚ)
    (hc : cropRatios aspect = some ratio) (hr : 0 < ratio)
    (a : Rect) (m : CropMut) (hm : mutOk W H m) (h : cropInv ratio W H a) :
    cropInv ratio W H (cropStep aspect W H a m) := by
  cases m
  case beginDraw px py =>
    obtain ⟨h1, h2, h3, h4⟩ := hm
    exact ⟨h1, h3, le_refl 0, le_refl 0, by show px + 0 ≤ W; linarith,
      by show py + 0 ≤ H; linarith, fun hcontra _ => absurd hcontra (lt_irrefl 0)⟩
  case drawMove sx sy px py =>
    obtain ⟨h1, h2, h3, h4, h5, h6, h7, h8⟩ := hm
    rw [cropStep, constrainToAspectRatio_eq aspect ratio W H hc]
    exact constrainWithRatio_inv ratio W H hr _
      (drawSelection_inBounds W H sx sy px py h1 h2 h3 h4 h5 h6 h7 h8)
  case dragMove dx dy =>
    exact dragClamp_inv ratio W H a dx dy h
  case resizeMove hd px py =>
    rw [cropStep, constrainToAspectRatio_eq aspect ratio W H hc]
    exact constrainWithRatio_inv ratio W H hr _
      (handleResize_inBounds W H a px py hd (cropInv_inBounds ratio W H a h))

/-- The invariant is preserved along a whole run of crop mutations. -/
theorem cropRun_inv (aspect : String) (ratio W H : ℚ)
    (hc : cropRatios aspect = some ratio) (hr : 0 < ratio) :
    ∀ (ms : List CropMut) (a0 : Rect), (∀ m ∈ ms, mutOk W H m) →
      cropInv ratio W H a0 → cropInv ratio W H (ms.foldl (cropStep aspect W H) a0)
  | [], _, _, h0 => h0
  | m :: rest, a0, hms, h0 => by
    rw [List.foldl_cons]
    exact cropRun_inv aspect ratio W H hc hr rest (cropStep aspect W H a0 m)
      (fun m' hm' => hms m' (List.mem_cons_of_mem m hm'))
      (cropStep_inv aspect ratio W H hc hr a0 m (hms m (List.mem_cons_self m rest)) h0)

/-- Claim C4: under a fixed non-free aspect ratio, any sequence of drawing,
dragging and handle-resize mutations keeps the crop rectangle inside the
preview canvas, and whenever the selection is non-empty its width/height
quotient equals the ratio exactly — hence within every positive epsilon. -/
theorem C4_crop_invariant (aspect : String) (ratio W H eps : ℚ) (a0 : Rect)
    (ms : List CropMut) (hc : cropRatios aspect = some ratio) (hr : 0 < ratio)
    (heps : 0 < eps) (h0 : cropInv ratio W H a0)
    (hms : ∀ m ∈ ms, mutOk W H m) :
    cropInv ratio W H (ms.foldl (cropStep aspect W H) a0) ∧
      (0 < (ms.foldl (cropStep aspect W H) a0).width →
        0 < (ms.foldl (cropStep aspect W H) a0).height →
        |(ms.foldl (cropStep aspect W H) a0).width /
            (ms.foldl (cropStep aspect W H) a0).height - ratio| < eps) := by
  have hinv : cropInv ratio W H (ms.foldl (cropStep aspect W H) a0) :=
    cropRun_inv aspect ratio W H hc hr ms a0 hms h0
  refine ⟨hinv, fun hwpos hhpos => ?_⟩
  have hrat := hinv.2.2.2.2.2.2 hwpos hhpos
  have hq : (ms.foldl (cropStep aspect W H) a0).width /
      (ms.foldl (cropStep aspect W H) a0).height = ratio := by
    rw [hrat, mul_div_assoc, div_self (ne_of_gt hhpos), mul_one]
  rw [hq, sub_self, abs_zero]
  exact heps

/-- Witness for C4 on a concrete session: square ratio, a draw that the
constraint reshapes to 20×20, inside a 100×100 canvas. -/
theorem C4_crop_invariant_witness :
    cropInv 1 100 100
        (([CropMut.beginDraw 10 10, CropMut.drawMove 10 10 40 30]).foldl
          (cropStep "1:1" 100 100) ⟨0, 0, 0, 0⟩) ∧
      (0 < (([CropMut.beginDraw 10 10, CropMut.drawMove 10 10 40 30]).foldl
            (cropStep "1:1" 100 100) ⟨0, 0, 0, 0⟩).width →
        0 < (([CropMut.beginDraw 10 10, CropMut.drawMove 10 10 40 30]).foldl
            (cropStep "1:1" 100 100) ⟨0, 0, 0, 0⟩).height →
        |(([CropMut.beginDraw 10 10, CropMut.drawMove 10 10 40 30]).foldl
              (cropStep "1:1" 100 100) ⟨0, 0, 0, 0⟩).width /
            (([CropMut.beginDraw 10 10, CropMut.drawMove 10 10 40 30]).foldl
              (cropStep "1:1" 100 100) ⟨0, 0, 0, 0⟩).height - 1| < 1) :=
  C4_crop_invariant "1:1" 1 100 100 1 ⟨0, 0, 0, 0⟩
    [CropMut.beginDraw 10 10, CropMut.drawMove 10 10 40 30]
    rfl (by norm_num) (by norm_num)
    (by refine ⟨?_, ?_, ?_, ?_, ?_, ?_, ?_⟩ <;> norm_num)
    (by intro m hm; fin_cases hm <;> norm_num [mutOk])

/-! ## Storage-counter invariant (C3) -/

theorem updateFirst_map_sum (g : ImageRec → ℤ) (i : ℕ) (f : ImageRec → ImageRec) :
    ∀ (l : List ImageRec) (im0 : ImageRec),
      l.find? (fun im => im.id = i) = some im0 →
      ((updateFirst i f l).map g).sum = (l.map g).sum + g (f im0) - g im0
  | [], im0, h => by simp [List.find?] at h
  | im :: rest, im0, h => by
    rw [updateFirst]
    by_cases hid : im.id = i
    · rw [if_pos hid]
      rw [List.find?_cons_of_pos _ (by simp [hid])] at h
      obtain rfl : im = im0 := Option.some.inj h
      simp only [List.map_cons, List.sum_cons]
      ring
    · rw [if_neg hid]
      rw [List.find?_cons_of_neg _ (by simp [hid])] at h
      have ih := updateFirst_map_sum g i f rest im0 h
      simp only [List.map_cons, List.sum_cons, ih]
      ring

theorem mem_updateFirst (i : ℕ) (f : ImageRec → ImageRec) :
    ∀ (l : List ImageRec) (im0 im2 : ImageRec),
      l.find? (fun im => im.id = i) = some im0 →
      im2 ∈ updateFirst i f l → im2 ∈ l ∨ im2 = f im0
  | [], _, _, h, _ => by simp [List.find?] at h
  | im :: rest, im0, im2, h, hm => by
    rw [updateFirst] at hm
    by_cases hid : im.id = i
    · rw [if_pos hid] at hm
      rw [List.find?_cons_of_pos _ (by simp [hid])] at h
      obtain rfl : im = im0 := Option.some.inj h
      rcases List.mem_cons.mp hm with heq | hmem
      · exact Or.inr heq
      · exact Or.inl (List.mem_cons_of_mem _ hmem)
    · rw [if_neg hid] at hm
      rw [List.find?_cons_of_neg _ (by simp [hid])] at h
      rcases List.mem_cons.mp hm with heq | hmem
      · exact Or.inl (heq ▸ List.mem_cons_self _ _)
      · rcases mem_updateFirst i f rest im0 im2 h hmem with hmem' | heq'
        · exact Or.inl (List.mem_cons_of_mem _ hmem')
        · exact Or.inr heq'

theorem removeFirst_map_sum (g : ImageRec → ℤ) (i : ℕ) :
    ∀ (l : List ImageRec) (im0 : ImageRec),
      l.find? (fun im => im.id = i) = some im0 →
      ((removeFirst i l).map g).sum = (l.map g).sum - g im0
  | [], im0, h => by simp [List.find?] at h
  | im :: rest, im0, h => by
    rw [removeFirst]
    by_cases hid : im.id = i
    · rw [if_pos hid]
      rw [List.find?_cons_of_pos _ (by simp [hid])] at h
      obtain rfl : im = im0 := Option.some.inj h
      simp only [List.map_cons, List.sum_cons]
      ring
    · rw [if_neg hid]
      rw [List.find?_cons_of_neg _ (by simp [hid])] at h
      have ih := removeFirst_map_sum g i rest im0 h
      simp only [List.map_cons, List.sum_cons, ih]
      ring

theorem mem_removeFirst (i : ℕ) :
    ∀ (l : List ImageRec) (im2 : ImageRec), im2 ∈ removeFirst i l → im2 ∈ l
  | [], _, hm => by simp [removeFirst] at hm
  | im :: rest, im2, hm => by
    rw [removeFirst] at hm
    by_cases hid : im.id = i
    · rw [if_pos hid] at hm
      exact List.mem_cons_of_mem _ hm
    · rw [if_neg hid] at hm
      rcases List.mem_cons.mp hm with heq | hmem
      · exact heq ▸ List.mem_cons_self _ _
      · exact List.mem_cons_of_mem _ (mem_removeFirst i rest im2 hmem)

/-- All images an id-tracking predicate must follow: every image holding a
processed artifact was the target of one of the transforms in `S`. -/
def processedTracked (S : List ℕ) (st : AppState) : Prop :=
  ∀ im ∈ st.images, im.processedSize ≠ none → im.id ∈ S

theorem addImage_paired (st : AppState) (i : ℕ) (size : ℤ) (dec : Bool) (art : ℤ)
    (hp : countersPaired st) : countersPaired (addImage st i size dec art) := by
  obtain ⟨h1, h2⟩ := hp
  constructor
  · show st.originalSize + size = sumSizes (st.images ++ [_])
    rw [sumSizes, List.map_append, List.sum_append, ← sumSizes, ← h1]
    simp
  · show st.compressedSize = sumContribs (st.images ++ [_])
    rw [sumContribs, List.map_append, List.sum_append, ← sumContribs, ← h2]
    simp [contrib]

theorem addImage_tracked (st : AppState) (i : ℕ) (size : ℤ) (dec : Bool) (art : ℤ)
    (S : List ℕ) (ht : processedTracked S st) :
    processedTracked S (addImage st i size dec art) := by
  intro im hm hps
  rcases List.mem_append.mp hm with hmem | hnew
  · exact ht im hmem hps
  · rw [List.mem_singleton] at hnew
    subst hnew
    simp at hps

theorem transform_paired (st : AppState) (i : ℕ) (s : TransformSettings) (S : List ℕ)
    (hp : countersPaired st) (ht : processedTracked S st) (hi : i ∉ S) :
    countersPaired (processImageWithSettings st i s).1 ∧
      processedTracked (i :: S) (processImageWithSettings st i s).1 := by
  rw [processImageWithSettings]
  cases hfind : st.images.find? (fun im => im.id = i) with
  | none => exact ⟨hp, fun im hm hps => List.mem_cons_of_mem _ (ht im hm hps)⟩
  | some im0 =>
    have him0 : im0 ∈ st.images := List.mem_of_find?_eq_some hfind
    have hid0 : im0.id = i := by simpa using List.find?_some hfind
    dsimp only
    by_cases hdec : im0.decodeOk
    · rw [if_pos hdec]
      have hnone : im0.processedSize = none := by
        by_contra hne
        exact hi (hid0 ▸ ht im0 him0 hne)
      obtain ⟨h1, h2⟩ := hp
      refine ⟨⟨?_, ?_⟩, ?_⟩
      · show st.originalSize = sumSizes (updateFirst i (applyTransformRecord s) st.images)
        rw [sumSizes, updateFirst_map_sum ImageRec.size i _ st.images im0 hfind, ← sumSizes,
          ← h1]
        show st.originalSize = st.originalSize + im0.size - im0.size
        ring
      · show st.compressedSize + im0.artifactSize
            = sumContribs (updateFirst i (applyTransformRecord s) st.images)
        rw [sumContribs, updateFirst_map_sum contrib i _ st.images im0 hfind, ← sumContribs,
          ← h2]
        have hc1 : contrib (applyTransformRecord s im0) = im0.artifactSize := rfl
        have hc2 : contrib im0 = 0 := by rw [contrib, hnone]
        rw [hc1, hc2]
        ring
      · intro im2 hm2 hps2
        rcases mem_updateFirst i (applyTransformRecord s) st.images im0 im2 hfind hm2 with
          hmem | heq
        · exact List.mem_cons_of_mem _ (ht im2 hmem hps2)
        · subst heq
          show (applyTransformRecord s im0).id ∈ i :: S
          have : (applyTransformRecord s im0).id = im0.id := rfl
          rw [this, hid0]
          exact List.mem_cons_self _ _
    · rw [if_neg hdec]
      exact ⟨hp, fun im hm hps => List.mem_cons_of_mem _ (ht im hm hps)⟩

theorem remove_paired (st : AppState) (i : ℕ) (S : List ℕ)
    (hp : countersPaired st) (ht : processedTracked S st) :
    countersPaired (removeImage st i) ∧ processedTracked S (removeImage st i) := by
  rw [removeImage]
  cases hfind : st.images.find? (fun im => im.id = i) with
  | none => exact ⟨hp, ht⟩
  | some im0 =>
    obtain ⟨h1, h2⟩ := hp
    refine ⟨⟨?_, ?_⟩, ?_⟩
    · show st.originalSize - im0.size = sumSizes (removeFirst i st.images)
      rw [sumSizes, removeFirst_map_sum ImageRec.size i st.images im0 hfind, ← sumSizes, ← h1]
    · show (match im0.processedSize with
          | some s => if s = 0 then st.compressedSize else st.compressedSize - s
          | none => st.compressedSize)
          = sumContribs (removeFirst i st.images)
      rw [sumContribs, removeFirst_map_sum contrib i st.images im0 hfind, ← sumContribs, ← h2]
      cases hps : im0.processedSize with
      | none => rw [contrib, hps]; ring
      | some sval =>
        dsimp only
        by_cases hz : sval = 0
        · rw [if_pos hz, contrib, hps, hz]; ring
        · rw [if_neg hz, contrib, hps]
    · intro im2 hm2 hps2
      exact ht im2 (mem_removeFirst i st.images im2 hm2) hps2

/-- Core induction for C3: along any run whose transform targets are pairwise
distinct and fresh, the storage counters stay paired with the image list. -/
theorem storeRun_paired :
    ∀ (ops : List StoreOp) (S : List ℕ) (st : AppState),
      countersPaired st → processedTracked S st →
      (∀ j ∈ transformIds ops, j ∉ S) → (transformIds ops).Nodup →
      countersPaired (applyStoreOps st ops)
  | [], _, _, hp, _, _, _ => hp
  | op :: rest, S, st, hp, ht, hdisj, hnd => by
    rw [applyStoreOps, List.foldl_cons, ← applyStoreOps]
    cases op with
    | add i size dec art =>
      have hids : transformIds (StoreOp.add i size dec art :: rest) = transformIds rest := by
        simp [transformIds]
      rw [hids] at hdisj hnd
      exact storeRun_paired rest S (addImage st i size dec art)
        (addImage_paired st i size dec art hp)
        (addImage_tracked st i size dec art S ht) hdisj hnd
    | transform i s =>
      have hids : transformIds (StoreOp.transform i s :: rest) = i :: transformIds rest := by
        simp [transformIds]
      rw [hids] at hdisj hnd
      have hi : i ∉ S := hdisj i (List.mem_cons_self _ _)
      obtain ⟨hp', ht'⟩ := transform_paired st i s S hp ht hi
      refine storeRun_paired rest (i :: S) _ hp' ht' ?_ (List.nodup_cons.mp hnd).2
      intro j hj
      rw [List.mem_cons]
      rintro (rfl | hjS)
      · exact (List.nodup_cons.mp hnd).1 hj
      · exact hdisj j (List.mem_cons_of_mem _ hj) hjS
    | remove i =>
      have hids : transformIds (StoreOp.remove i :: rest) = transformIds rest := by
        simp [transformIds]
      rw [hids] at hdisj hnd
      obtain ⟨hp', ht'⟩ := remove_paired st i S hp ht
      exact storeRun_paired rest S _ hp' ht' hdisj hnd

/-- The `originalSize` half of the pairing holds along every run, with no
restriction on repeated transforms: a transform never touches image sizes or
`originalSize`. -/
theorem origRun_eq :
    ∀ (ops : List StoreOp) (st : AppState),
      st.originalSize = sumSizes st.images →
      (applyStoreOps st ops).originalSize = sumSizes (applyStoreOps st ops).images
  | [], _, h => h
  | op :: rest, st, h => by
    rw [applyStoreOps, List.foldl_cons, ← applyStoreOps]
    apply origRun_eq rest
    cases op with
    | add i size dec art =>
      show st.originalSize + size = sumSizes (st.images ++ [_])
      rw [sumSizes, List.map_append, List.sum_append, ← sumSizes, ← h]
      simp
    | transform i s =>
      show (processImageWithSettings st i s).1.originalSize
        = sumSizes (processImageWithSettings st i s).1.images
      rw [processImageWithSettings]
      cases hfind : st.images.find? (fun im => im.id = i) with
      | none => exact h
      | some im0 =>
        dsimp only
        by_cases hdec : im0.decodeOk
        · rw [if_pos hdec]
          show st.originalSize = sumSizes (updateFirst i (applyTransformRecord s) st.images)
          rw [sumSizes, updateFirst_map_sum ImageRec.size i _ st.images im0 hfind,
            ← sumSizes, ← h]
          show st.originalSize = st.originalSize + im0.size - im0.size
          ring
        · rw [if_neg hdec]
          exact h
    | remove i =>
      show (removeImage st i).originalSize = sumSizes (removeImage st i).images
      rw [removeImage]
      cases hfind : st.images.find? (fun im => im.id = i) with
      | none => exact h
      | some im0 =>
        show st.originalSize - im0.size = sumSizes (removeFirst i st.images)
        rw [sumSizes, removeFirst_map_sum ImageRec.size i st.images im0 hfind, ← sumSizes, ← h]

/-- Claim C3 (amended): starting from the empty application state,
`originalSize` always equals the sum of the sizes of the images in the list;
and as long as no image is transformed twice, `compressedSize` also equals
the sum of the processed artifact sizes of the images in the list (so a
removal retracts exactly the removed image's contribution).  A repeated
transform of one image breaks the second half: `processImageLossless` adds
the new artifact size to `compressedSize` without retracting the previous
one. -/
theorem C3_counters_paired :
    (∀ ops : List StoreOp,
        (applyStoreOps { images := [] } ops).originalSize
          = sumSizes (applyStoreOps { images := [] } ops).images) ∧
    (∀ ops : List StoreOp, (transformIds ops).Nodup →
        countersPaired (applyStoreOps { images := [] } ops)) := by
  constructor
  · intro ops
    exact origRun_eq ops { images := [] } rfl
  · intro ops hnd
    exact storeRun_paired ops [] { images := [] } ⟨rfl, rfl⟩
      (fun im hm _ => absurd hm (List.not_mem_nil im))
      (fun j _ hj => absurd hj (List.not_mem_nil j)) hnd

/-- Witness for the amended C3: add, transform once, remove. -/
theorem C3_counters_paired_witness :
    ((applyStoreOps { images := [] }
          [StoreOp.add 1 100 true 40, StoreOp.transform 1 { format := "png" },
            StoreOp.remove 1]).originalSize
        = sumSizes (applyStoreOps { images := [] }
          [StoreOp.add 1 100 true 40, StoreOp.transform 1 { format := "png" },
            StoreOp.remove 1]).images) ∧
      countersPaired (applyStoreOps { images := [] }
        [StoreOp.add 1 100 true 40, StoreOp.transform 1 { format := "png" },
          StoreOp.remove 1]) :=
  ⟨C3_counters_paired.1 _,
    C3_counters_paired.2
      [StoreOp.add 1 100 true 40, StoreOp.transform 1 { format := "png" },
        StoreOp.remove 1] (by decide)⟩

/-- Counterexample to claim C3 as stated: transforming the same image twice
leaves `compressedSize = 80` while the image list's artifact contributions
sum to `40`, so the counters are no longer paired with the list. -/
theorem C3_counterexample :
    ¬ countersPaired (applyStoreOps { images := [] }
        [StoreOp.add 1 100 true 40, StoreOp.transform 1 { format := "png" },
          StoreOp.transform 1 { format := "png" }]) ∧
      (applyStoreOps { images := [] }
          [StoreOp.add 1 100 true 40, StoreOp.transform 1 { format := "png" },
            StoreOp.transform 1 { format := "png" }]).compressedSize = 80 ∧
      sumContribs (applyStoreOps { images := [] }
          [StoreOp.add 1 100 true 40, StoreOp.transform 1 { format := "png" },
            StoreOp.transform 1 { format := "png" }]).images = 40 := by
  decide

/-! ## Batch driver failure behaviour (C1) -/

theorem find?_append_left_none (i : ℕ) :
    ∀ (P rest : List ImageRec), (∀ im ∈ P, im.id ≠ i) →
      (P ++ rest).find? (fun im => im.id = i) = rest.find? (fun im => im.id = i)
  | [], _, _ => rfl
  | im :: P', rest, hP => by
    rw [List.cons_append,
      List.find?_cons_of_neg _ (by simp [hP im (List.mem_cons_self im P')])]
    exact find?_append_left_none i P' rest
      (fun im2 hm => hP im2 (List.mem_cons_of_mem _ hm))

theorem updateFirst_append_left (i : ℕ) (f : ImageRec → ImageRec) :
    ∀ (P rest : List ImageRec), (∀ im ∈ P, im.id ≠ i) →
      updateFirst i f (P ++ rest) = P ++ updateFirst i f rest
  | [], _, _ => rfl
  | im :: P', rest, hP => by
    rw [List.cons_append, updateFirst, if_neg (hP im (List.mem_cons_self im P')),
      updateFirst_append_left i f P' rest
        (fun im2 hm => hP im2 (List.mem_cons_of_mem _ hm)),
      List.cons_append]

/-- A per-item transform on an image that decodes: the image is rewritten in
place, the counters grow, and no exception escapes. -/
theorem process_step_ok (st : AppState) (s : TransformSettings)
    (P rest : List ImageRec) (a : ImageRec)
    (him : st.images = P ++ a :: rest) (hdisj : ∀ im ∈ P, im.id ≠ a.id)
    (hdec : a.decodeOk = true) :
    processImageWithSettings st a.id s
      = ({ st with
            images := P ++ applyTransformRecord s a :: rest,
            compressedSize := st.compressedSize + a.artifactSize,
            totalProcessed := st.totalProcessed + 1 }, false) := by
  rw [processImageWithSettings, him, find?_append_left_none a.id P _ hdisj,
    List.find?_cons_of_pos _ (by simp)]
  dsimp only
  rw [if_pos hdec, updateFirst_append_left a.id _ P _ hdisj, updateFirst, if_pos rfl]

/-- A per-item transform on an image whose source fails to decode: the state
only gains the failure notification and the exception is rethrown. -/
theorem process_step_fail (st : AppState) (s : TransformSettings)
    (P rest : List ImageRec) (bad : ImageRec)
    (him : st.images = P ++ bad :: rest) (hdisj : ∀ im ∈ P, im.id ≠ bad.id)
    (hbad : bad.decodeOk = false) :
    processImageWithSettings st bad.id s
      = ({ st with
            notifications := st.notifications ++ ["Képfeldolgozás sikertelen!"] },
          true) := by
  rw [processImageWithSettings, him, find?_append_left_none bad.id P _ hdisj,
    List.find?_cons_of_pos _ (by simp)]
  dsimp only
  rw [if_neg (by simp [hbad])]

/-- The batch loop transforms every image before the failing one, then stops
at the failing one with a single failure notification. -/
theorem batchGo_spec (s : TransformSettings) :
    ∀ (A P B : List ImageRec) (bad : ImageRec) (st : AppState),
      st.images = P ++ A ++ bad :: B →
      (∀ im ∈ A, im.decodeOk = true) → bad.decodeOk = false →
      (∀ im ∈ P, ∀ im2 ∈ A ++ bad :: B, im.id ≠ im2.id) →
      ((A ++ bad :: B).map ImageRec.id).Nodup →
      (batchGo s st ((A ++ bad :: B).map ImageRec.id)).2 = true ∧
        (batchGo s st ((A ++ bad :: B).map ImageRec.id)).1.images
          = P ++ A.map (applyTransformRecord s) ++ bad :: B ∧
        (batchGo s st ((A ++ bad :: B).map ImageRec.id)).1.notifications
          = st.notifications ++ ["Képfeldolgozás sikertelen!"]
  | [], P, B, bad, st, him, _, hbad, hPdisj, _ => by
    rw [List.nil_append, List.map_cons, batchGo]
    have hstep := process_step_fail st s P B bad (by simpa using him)
      (fun im hm => hPdisj im hm bad (List.mem_cons_self bad B)) hbad
    rw [hstep]
    refine ⟨rfl, ?_, rfl⟩
    show st.images = P ++ [].map (applyTransformRecord s) ++ bad :: B
    simpa using him
  | a :: A', P, B, bad, st, him, hA, hbad, hPdisj, hnd => by
    have hconsids : ((a :: A' ++ bad :: B).map ImageRec.id)
        = a.id :: ((A' ++ bad :: B).map ImageRec.id) := by
      simp
    rw [hconsids, batchGo]
    have hPdisj_a : ∀ im ∈ P, im.id ≠ a.id :=
      fun im hm => hPdisj im hm a (List.mem_append_left _ (List.mem_cons_self a A'))
    have hstep := process_step_ok st s P (A' ++ bad :: B) a
      (by simpa using him) hPdisj_a (hA a (List.mem_cons_self a A'))
    rw [hstep]
    dsimp only
    rw [if_neg Bool.false_ne_true]
    have hnd' : ((A' ++ bad :: B).map ImageRec.id).Nodup := by
      rw [List.cons_append, List.map_cons, List.nodup_cons] at hnd
      exact hnd.2
    have hafresh : a.id ∉ (A' ++ bad :: B).map ImageRec.id := by
      rw [List.cons_append, List.map_cons, List.nodup_cons] at hnd
      exact hnd.1
    have hPdisj' : ∀ im ∈ P ++ [applyTransformRecord s a],
        ∀ im2 ∈ A' ++ bad :: B, im.id ≠ im2.id := by
      intro im hm im2 hm2
      rcases List.mem_append.mp hm with hmP | hmA
      · exact hPdisj im hmP im2 (List.mem_cons_of_mem a hm2)
      · rw [List.mem_singleton] at hmA
        subst hmA
        show (applyTransformRecord s a).id ≠ im2.id
        intro heq
        exact hafresh (heq ▸ List.mem_map_of_mem ImageRec.id hm2)
    have hrec := batchGo_spec s A' (P ++ [applyTransformRecord s a]) B bad
      ({ st with
          images := P ++ applyTransformRecord s a :: (A' ++ bad :: B),
          compressedSize := st.compressedSize + a.artifactSize,
          totalProcessed := st.totalProcessed + 1 })
      (by simp) (fun im hm => hA im (List.mem_cons_of_mem a hm)) hbad hPdisj' hnd'
    refine ⟨hrec.1, ?_, hrec.2.2⟩
    rw [hrec.2.1]
    simp

/-- Claim C1 (amended): when image `k`'s source fails to decode,
`processImageWithSettings` catches the failure, emits one failure
notification, and rethrows; `batchProcess` has no per-item catch, so the
images before `k` are transformed and marked processed while `k` and every
image after it are left untouched, and the batch run aborts (no completion
notification, no failure counter — the run's abort flag is the rethrown
exception). -/
theorem C1_batch_abort (s : TransformSettings) (A B : List ImageRec)
    (bad : ImageRec) (st : AppState) (him : st.images = A ++ bad :: B)
    (hA : ∀ im ∈ A, im.decodeOk = true) (hbad : bad.decodeOk = false)
    (hnd : ((A ++ bad :: B).map ImageRec.id).Nodup) :
    (batchProcess st s).2 = true ∧
      (batchProcess st s).1.images = A.map (applyTransformRecord s) ++ bad :: B ∧
      (∀ im ∈ A.map (applyTransformRecord s), im.processed = true) ∧
      (batchProcess st s).1.notifications
        = st.notifications ++ ["Képfeldolgozás sikertelen!"] := by
  have hspec := batchGo_spec s A [] B bad st (by simpa using him) hA hbad
    (fun im hm => absurd hm (List.not_mem_nil im)) hnd
  have hids : st.images.map ImageRec.id = (A ++ bad :: B).map ImageRec.id := by
    rw [him]
  rw [batchProcess, hids, if_pos hspec.1]
  refine ⟨hspec.1, by simpa using hspec.2.1, ?_, hspec.2.2⟩
  intro im hm
  rcases List.mem_map.mp hm with ⟨a, _, rfl⟩
  rfl

/-- Images for the concrete batch scenarios of C1. -/
def c1Im1 : ImageRec := { id := 1, size := 100, decodeOk := true, artifactSize := 40 }

def c1Im2 : ImageRec := { id := 2, size := 100, decodeOk := false, artifactSize := 40 }

def c1Im3 : ImageRec := { id := 3, size := 100, decodeOk := true, artifactSize := 40 }

/-- A three-image batch whose second image fails to decode. -/
def c1BadState : AppState :=
  { images := [c1Im1, c1Im2, c1Im3] }

/-- Counterexample to claim C1 as stated: with three images whose second
fails to decode, the batch driver aborts at the failure — the third image is
never transformed, so the remaining `N-1` images are *not* all processed and
the run does not continue. -/
theorem C1_counterexample :
    ((batchProcess c1BadState { format := "png" }).1.images.map ImageRec.processed)
        = [true, false, false] ∧
      (batchProcess c1BadState { format := "png" }).2 = true ∧
      ¬ (∀ im ∈ (batchProcess c1BadState { format := "png" }).1.images,
          im.decodeOk = true → im.processed = true) := by
  decide

/-- Witness for the amended C1 on the same three-image batch. -/
theorem C1_batch_abort_witness :
    (batchProcess c1BadState { format := "png" }).2 = true ∧
      (batchProcess c1BadState { format := "png" }).1.images
        = [c1Im1].map (applyTransformRecord { format := "png" }) ++ c1Im2 :: [c1Im3] ∧
      (∀ im ∈ [c1Im1].map (applyTransformRecord { format := "png" }),
          im.processed = true) ∧
      (batchProcess c1BadState { format := "png" }).1.notifications
        = c1BadState.notifications ++ ["Képfeldolgozás sikertelen!"] :=
  C1_batch_abort { format := "png" } [c1Im1] [c1Im3] c1Im2 c1BadState rfl
    (by decide) rfl (by decide)

/-! ## Peer send on a closed connection (C2) -/

theorem closeEvent_find?_none (peer : String) :
    ∀ (conns : List PeerConn), (∀ c ∈ conns, c.peer = peer → c.inbound = true) →
      (conns.filterMap fun c =>
          if c.peer = peer then
            if c.inbound then none else some { c with isOpen := false }
          else some c).find? (fun c => c.peer = peer) = none
  | [], _ => rfl
  | c :: rest, hall => by
    rw [List.filterMap_cons]
    by_cases hp : c.peer = peer
    · rw [if_pos hp, if_pos (hall c (List.mem_cons_self c rest) hp)]
      exact closeEvent_find?_none peer rest
        (fun c2 hm => hall c2 (List.mem_cons_of_mem c hm))
    · rw [if_neg hp]
      dsimp only
      rw [List.find?_cons_of_neg _ (by simp [hp])]
      exact closeEvent_find?_none peer rest
        (fun c2 hm => hall c2 (List.mem_cons_of_mem c hm))

theorem closeEvent_find?_outbound (peer : String) :
    ∀ (conns : List PeerConn) (c : PeerConn),
      conns.find? (fun x => x.peer = peer) = some c → c.inbound = false →
      (conns.filterMap fun x =>
          if x.peer = peer then
            if x.inbound then none else some { x with isOpen := false }
          else some x).find? (fun x => x.peer = peer) = some { c with isOpen := false }
  | [], _, hfind, _ => by simp [List.find?] at hfind
  | a :: rest, c, hfind, hout => by
    rw [List.filterMap_cons]
    by_cases hp : a.peer = peer
    · rw [List.find?_cons_of_pos _ (by simp [hp])] at hfind
      obtain rfl : a = c := Option.some.inj hfind
      rw [if_pos hp, hout, if_neg Bool.false_ne_true]
      dsimp only
      rw [List.find?_cons_of_pos _ (by simp [hp])]
    · rw [List.find?_cons_of_neg _ (by simp [hp])] at hfind
      rw [if_neg hp]
      dsimp only
      rw [List.find?_cons_of_neg _ (by simp [hp])]
      exact closeEvent_find?_outbound peer rest c hfind hout

/-- Claim C2 (amended): after the underlying channel of the target connection
closes, the behaviour of `sendFile` splits by how the connection was opened.
An inbound connection's registered close handler removes it from the active
set, so the send is rejected before any transmission with a send-failure
notification.  The manual-connect (outbound) path registers no close handler,
so a closed outbound connection stays in the active set: `sendFile` checks no
channel state, performs the transmission attempt on the closed connection and
reports success — not a send-failure. -/
theorem C2_send_closed (st : PeerState) (peer : String) (imageId : ℕ) :
    ((∀ c ∈ st.connections, c.peer = peer → c.inbound = true) →
      (sendFile (connectionCloseEvent st peer) imageId peer).transmissions
          = st.transmissions ∧
        (sendFile (connectionCloseEvent st peer) imageId peer).notifications
          = st.notifications ++ ["Fájl küldése sikertelen!"]) ∧
    (∀ (c : PeerConn) (im : ImageRec),
      st.connections.find? (fun x => x.peer = peer) = some c →
      c.inbound = false →
      st.images.find? (fun x => x.id = imageId) = some im →
      (sendFile (connectionCloseEvent st peer) imageId peer).transmissions
          = st.transmissions ++ [(peer, false)] ∧
        (sendFile (connectionCloseEvent st peer) imageId peer).notifications
          = st.notifications ++ ["Fájl elküldve!"]) := by
  constructor
  · intro hall
    rw [sendFile, connectionCloseEvent]
    rw [closeEvent_find?_none peer st.connections hall]
    cases st.images.find? (fun x => x.id = imageId) <;> exact ⟨rfl, rfl⟩
  · intro c im hfind hout hfindim
    rw [sendFile, connectionCloseEvent]
    rw [closeEvent_find?_outbound peer st.connections c hfind hout, hfindim]
    exact ⟨rfl, rfl⟩

/-- The sendable image of the concrete C2 scenarios. -/
def c2Image : ImageRec := { id := 1, size := 100, decodeOk := true, artifactSize := 40 }

/-- The starting peer state for the concrete C2 scenarios: no connections,
one sendable image. -/
def c2Start : PeerState :=
  { connections := [], images := [c2Image] }

/-- The peer state after a manual outbound connect to `"remote"` followed by
a remote-side close: the connection is closed but still registered. -/
def c2ClosedState : PeerState :=
  connectionCloseEvent (connectManualOpen c2Start "remote") "remote"

/-- Counterexample to claim C2 as stated: sending to the closed outbound
connection is not rejected — the transmission is attempted on a connection
whose channel state is closed (`isOpen = false` in the transmission log) and
a success notification is shown, with no send-failure signal. -/
theorem C2_counterexample :
    (sendFile c2ClosedState 1 "remote").transmissions = [("remote", false)] ∧
      (sendFile c2ClosedState 1 "remote").notifications
        = ["Eszköz sikeresen csatlakoztatva!", "Fájl elküldve!"] ∧
      ¬ "Fájl küldése sikertelen!" ∈ (sendFile c2ClosedState 1 "remote").notifications := by
  decide

/-- Witness for the amended C2 at the same concrete state. -/
theorem C2_send_closed_witness :
    (sendFile (connectionCloseEvent (connectManualOpen c2Start "remote") "remote")
          1 "remote").transmissions
        = (connectManualOpen c2Start "remote").transmissions ++ [("remote", false)] ∧
      (sendFile (connectionCloseEvent (connectManualOpen c2Start "remote") "remote")
          1 "remote").notifications
        = (connectManualOpen c2Start "remote").notifications ++ ["Fájl elküldve!"] :=
  (C2_send_closed (connectManualOpen c2Start "remote") "remote" 1).2
    { peer := "remote", isOpen := true, inbound := false } c2Image
    (by decide) rfl (by decide)

/-- Witness for C9 at scale `1/2` and a concrete rectangle. -/
theorem C9_crop_roundtrip_witness :
    ((0 : ℚ) < 1 / 2 ∧ (1 / 2 : ℚ) ≤ 1) ∧
      |((cropToSource (1 / 2) ⟨3, 5, 7, 9⟩).1 : ℚ) * (1 / 2) - (3 : ℚ)| ≤ 1 ∧
      |((cropToSource (1 / 2) ⟨3, 5, 7, 9⟩).2.1 : ℚ) * (1 / 2) - (5 : ℚ)| ≤ 1 ∧
      |((cropToSource (1 / 2) ⟨3, 5, 7, 9⟩).2.2.1 : ℚ) * (1 / 2) - (7 : ℚ)| ≤ 1 ∧
      |((cropToSource (1 / 2) ⟨3, 5, 7, 9⟩).2.2.2 : ℚ) * (1 / 2) - (9 : ℚ)| ≤ 1 :=
  ⟨⟨by norm_num, by norm_num⟩,
    C9_crop_roundtrip (1 / 2) ⟨3, 5, 7, 9⟩ (by norm_num) (by norm_num)⟩

end ImageFlow
